import Mathlib

/-!
Verification of the ssh-bridge repository core.

This file gives a shallow embedding, in Lean 4, of the parts of the
ssh-bridge source that the checked claims are about:

* the frame codec (src/lib/frame-parser.js),
* the request validators (src/daemon/decode.js),
* the connection pool and credential cache (src/daemon/pool.js),
* the daemon-side client handler state machine (src/daemon/handler.js),
* the caller-side client state machine (src/lib/create-client.js).

Buffers are modelled as `List Nat` of byte values; JavaScript maps as
association lists; object identity of cached credential records as an
explicit `rid : Nat` field.  Randomness (share keys) is supplied as an
explicit argument to the step functions that draw random bytes, so the
embedding stays deterministic and executable.
-/

namespace SshBridge

/-! ## Frame codec (src/lib/frame-parser.js)

A frame is a 5 byte header followed by the payload.  The first 4 header
bytes are the payload length, as a big-endian 32-bit unsigned integer,
and the 5th byte is the frame type tag. -/

/-- Big-endian 4-byte encoding of a 32-bit length, as written by
`frame.writeUInt32BE(dataBuffer.byteLength, 0)`. -/
def be32 (n : Nat) : List Nat :=
  [n / 2 ^ 24 % 256, n / 2 ^ 16 % 256, n / 2 ^ 8 % 256, n % 256]

/-- Big-endian read of the first 4 bytes of a buffer, as performed by
`this._chunks[0].readUInt32BE(0)`. -/
def rd32 (buf : List Nat) : Nat :=
  buf.getD 0 0 * 2 ^ 24 + buf.getD 1 0 * 2 ^ 16 + buf.getD 2 0 * 2 ^ 8 + buf.getD 3 0

/-- A decoded frame: type tag and payload bytes. -/
structure Frame where
  type : Nat
  data : List Nat
deriving DecidableEq, Repr

/-- FrameParser.createFrame: 4-byte big-endian length, then the type byte,
then the payload.  Storing the tag into `frame[4]` truncates it to a byte,
which the model makes explicit with `% 256`. -/
def createFrame (type : Nat) (data : List Nat) : List Nat :=
  be32 data.length ++ [type % 256] ++ data

/-- State of a FrameParser instance.  The source keeps a list `_chunks` of
buffers together with `_chunksSize`, but only ever reads the list through
`Buffer.concat`, so the model keeps the concatenation directly; the cached
`_expectedSize` field is `none` for the sentinel value -1. -/
structure FPState where
  chunks : List Nat
  expectedSize : Option Nat
  frames : List Frame
deriving DecidableEq, Repr

/-- A fresh FrameParser (the constructor, and also `clear()`). -/
def FPState.init : FPState := ⟨[], none, []⟩

/-- The while loop inside `FrameParser.append`.  Each iteration either
slices a complete frame of at least 5 bytes out of the buffer or stops, so
a fuel of `buf.length` always suffices; fuel keeps the definition
structurally recursive and hence evaluable by the kernel. -/
def appendLoop : Nat → List Nat → Option Nat → List Frame → FPState
  | 0, buf, exp, fr => ⟨buf, exp, fr⟩
  | fuel + 1, buf, exp, fr =>
    if 5 ≤ buf.length then
      let e := match exp with
        | some e => e
        | none => rd32 buf + 5
      if e ≤ buf.length then
        appendLoop fuel (buf.drop e) none
          (fr ++ [⟨buf.getD 4 0, (buf.drop 5).take (e - 5)⟩])
      else ⟨buf, some e, fr⟩
    else ⟨buf, exp, fr⟩

/-- FrameParser.append: push the chunk, then slice out as many complete
frames as are available. -/
def FPState.append (s : FPState) (chunk : List Nat) : FPState :=
  appendLoop (s.chunks.length + chunk.length) (s.chunks ++ chunk) s.expectedSize s.frames

/-- Feed a sequence of socket chunks to a parser state in order. -/
def runChunks (s : FPState) (cs : List (List Nat)) : FPState :=
  cs.foldl FPState.append s

/-- Reference recursion for the parser: the frames contained in a byte
stream and the unconsumed remainder, ignoring the `_expectedSize` cache.
Fuel-based for the same reason as `appendLoop`. -/
def parseP : Nat → List Nat → List Frame × List Nat
  | 0, buf => ([], buf)
  | fuel + 1, buf =>
    if 5 ≤ buf.length then
      let e := rd32 buf + 5
      if e ≤ buf.length then
        let r := parseP fuel (buf.drop e)
        (⟨buf.getD 4 0, (buf.drop 5).take (e - 5)⟩ :: r.1, r.2)
      else ([], buf)
    else ([], buf)

/-- All complete frames in a byte stream, with the unconsumed remainder. -/
def parseStream (buf : List Nat) : List Frame × List Nat :=
  parseP buf.length buf

/-- The `_expectedSize` cache as a function of the buffered bytes: -1 (here
`none`) while fewer than 5 bytes are buffered, else the declared length
plus the 5 header bytes. -/
def finExp (rest : List Nat) : Option Nat :=
  if 5 ≤ rest.length then some (rd32 rest + 5) else none

/-- A buffer on which the parse loop stops: it holds no complete frame. -/
def Stopped (buf : List Nat) : Prop :=
  buf.length < 5 ∨ buf.length < rd32 buf + 5

theorem rd32_append (a c : List Nat) (h : 4 ≤ a.length) : rd32 (a ++ c) = rd32 a := by
  unfold rd32
  rw [List.getD_append _ _ _ _ (by omega), List.getD_append _ _ _ _ (by omega),
    List.getD_append _ _ _ _ (by omega), List.getD_append _ _ _ _ (by omega)]

theorem rd32_be32 (n : Nat) (x : List Nat) (h : n < 2 ^ 32) :
    rd32 (be32 n ++ x) = n := by
  simp only [be32, rd32, List.cons_append, List.nil_append, List.getD_cons_zero,
    List.getD_cons_succ]
  omega

theorem parseP_fuel (f1 f2 : Nat) (buf : List Nat) (h1 : buf.length ≤ f1)
    (h2 : f1 ≤ f2) : parseP f2 buf = parseP f1 buf := by
  induction f1 generalizing buf f2 with
  | zero =>
    have hb : buf = [] := List.length_eq_zero.mp (Nat.le_zero.mp h1)
    subst hb
    cases f2 with
    | zero => rfl
    | succ m => simp [parseP]
  | succ n ih =>
    cases f2 with
    | zero => omega
    | succ m =>
      simp only [parseP]
      by_cases h5 : 5 ≤ buf.length
      · simp only [if_pos h5]
        by_cases he : rd32 buf + 5 ≤ buf.length
        · simp only [if_pos he]
          rw [ih m (buf.drop (rd32 buf + 5)) (by simp [List.length_drop]; omega) (by omega)]
        · simp only [if_neg he]
      · simp only [if_neg h5]

theorem parseP_eq_parseStream (fuel : Nat) (buf : List Nat) (h : buf.length ≤ fuel) :
    parseP fuel buf = parseStream buf :=
  parseP_fuel buf.length fuel buf le_rfl h

theorem parseP_stop (fuel : Nat) (buf : List Nat) (h : Stopped buf) :
    parseP fuel buf = ([], buf) := by
  cases fuel with
  | zero => rfl
  | succ m =>
    simp only [parseP]
    rcases h with h | h
    · rw [if_neg (by omega)]
    · by_cases h5 : 5 ≤ buf.length
      · rw [if_pos h5, if_neg (by omega)]
      · rw [if_neg h5]

theorem parseStream_stop (buf : List Nat) (h : Stopped buf) :
    parseStream buf = ([], buf) :=
  parseP_stop buf.length buf h

theorem parseStream_cons (buf : List Nat) (h5 : 5 ≤ buf.length)
    (he : rd32 buf + 5 ≤ buf.length) :
    parseStream buf =
      (⟨buf.getD 4 0, (buf.drop 5).take (rd32 buf)⟩ ::
          (parseStream (buf.drop (rd32 buf + 5))).1,
        (parseStream (buf.drop (rd32 buf + 5))).2) := by
  obtain ⟨m, hm⟩ : ∃ m, buf.length = m + 1 := ⟨buf.length - 1, by omega⟩
  unfold parseStream
  rw [hm]
  simp only [parseP, if_pos h5, if_pos he]
  rw [parseP_eq_parseStream m (buf.drop (rd32 buf + 5)) (by simp [List.length_drop]; omega)]
  simp [parseStream]

theorem parseP_snd_stopped (fuel : Nat) (buf : List Nat) (h : buf.length ≤ fuel) :
    Stopped (parseP fuel buf).2 := by
  induction fuel generalizing buf with
  | zero =>
    have hb : buf = [] := List.length_eq_zero.mp (Nat.le_zero.mp h)
    subst hb
    exact Or.inl (by simp [parseP])
  | succ n ih =>
    simp only [parseP]
    by_cases h5 : 5 ≤ buf.length
    · simp only [if_pos h5]
      by_cases he : rd32 buf + 5 ≤ buf.length
      · simp only [if_pos he]
        exact ih (buf.drop (rd32 buf + 5)) (by simp [List.length_drop]; omega)
      · simp only [if_neg he]
        exact Or.inr (by omega)
    · simp only [if_neg h5]
      exact Or.inl (by omega)

theorem parseStream_snd_stopped (buf : List Nat) : Stopped (parseStream buf).2 :=
  parseP_snd_stopped buf.length buf le_rfl

theorem appendLoop_eq_none (fuel : Nat) (buf : List Nat) (fr : List Frame)
    (hf : buf.length ≤ fuel) :
    appendLoop fuel buf none fr =
      ⟨(parseStream buf).2, finExp (parseStream buf).2, fr ++ (parseStream buf).1⟩ := by
  induction fuel generalizing buf fr with
  | zero =>
    have hb : buf = [] := List.length_eq_zero.mp (Nat.le_zero.mp hf)
    subst hb
    simp [appendLoop, parseStream, parseP, finExp]
  | succ n ih =>
    simp only [appendLoop]
    by_cases h5 : 5 ≤ buf.length
    · simp only [if_pos h5]
      by_cases he : rd32 buf + 5 ≤ buf.length
      · simp only [if_pos he]
        rw [ih (buf.drop (rd32 buf + 5)) _ (by simp [List.length_drop]; omega)]
        rw [parseStream_cons buf h5 he]
        simp
      · simp only [if_neg he]
        rw [parseStream_stop buf (Or.inr (by omega))]
        simp [finExp, if_pos h5]
    · simp only [if_neg h5]
      rw [parseStream_stop buf (Or.inl (by omega))]
      simp [finExp, if_neg h5]

theorem appendLoop_cache (n : Nat) (buf : List Nat) (fr : List Frame)
    (h5 : 5 ≤ buf.length) :
    appendLoop (n + 1) buf (some (rd32 buf + 5)) fr = appendLoop (n + 1) buf none fr := by
  simp only [appendLoop, if_pos h5]

theorem appendLoop_eq (fuel : Nat) (buf : List Nat) (exp : Option Nat) (fr : List Frame)
    (hf : buf.length ≤ fuel)
    (hexp : exp = none ∨ (5 ≤ buf.length ∧ exp = some (rd32 buf + 5))) :
    appendLoop fuel buf exp fr =
      ⟨(parseStream buf).2, finExp (parseStream buf).2, fr ++ (parseStream buf).1⟩ := by
  rcases hexp with rfl | ⟨h5, rfl⟩
  · exact appendLoop_eq_none fuel buf fr hf
  · cases fuel with
    | zero => omega
    | succ n =>
      rw [appendLoop_cache n buf fr h5]
      exact appendLoop_eq_none (n + 1) buf fr hf

theorem FPState.append_eq (s : FPState) (c : List Nat) (h : s.expectedSize = finExp s.chunks) :
    s.append c =
      ⟨(parseStream (s.chunks ++ c)).2, finExp (parseStream (s.chunks ++ c)).2,
        s.frames ++ (parseStream (s.chunks ++ c)).1⟩ := by
  unfold FPState.append
  apply appendLoop_eq
  · simp
  · rw [h]
    unfold finExp
    by_cases h5 : 5 ≤ s.chunks.length
    · rw [if_pos h5]
      right
      constructor
      · simp only [List.length_append]; omega
      · rw [rd32_append s.chunks c (by omega)]
    · rw [if_neg h5]
      exact Or.inl rfl

theorem parseStream_append (a c : List Nat) :
    parseStream (a ++ c) =
      ((parseStream a).1 ++ (parseStream ((parseStream a).2 ++ c)).1,
        (parseStream ((parseStream a).2 ++ c)).2) := by
  by_cases h5 : 5 ≤ a.length
  · by_cases he : rd32 a + 5 ≤ a.length
    · have hr : rd32 (a ++ c) = rd32 a := rd32_append a c (by omega)
      have hlen : 5 ≤ (a ++ c).length := by simp only [List.length_append]; omega
      have hcons1 := parseStream_cons a h5 he
      have hcons2 := parseStream_cons (a ++ c) hlen
        (by rw [hr]; simp only [List.length_append]; omega)
      have hget : (a ++ c).getD 4 0 = a.getD 4 0 := List.getD_append _ _ _ _ (by omega)
      have hdata : ((a ++ c).drop 5).take (rd32 (a ++ c)) = (a.drop 5).take (rd32 a) := by
        rw [hr, List.drop_append_of_le_length (by omega)]
        exact List.take_append_of_le_length (by simp [List.length_drop]; omega)
      have hdrop : (a ++ c).drop (rd32 (a ++ c) + 5) = a.drop (rd32 a + 5) ++ c := by
        rw [hr]
        exact List.drop_append_of_le_length he
      have ih := parseStream_append (a.drop (rd32 a + 5)) c
      rw [hcons2, hget, hdata, hdrop, hcons1, ih]
      simp
    · rw [parseStream_stop a (Or.inr (by omega))]
      simp
  · rw [parseStream_stop a (Or.inl (by omega))]
    simp
termination_by a.length
decreasing_by simp [List.length_drop]; omega

theorem runChunks_eq (s : FPState) (cs : List (List Nat))
    (h1 : s.expectedSize = finExp s.chunks)
    (h2 : parseStream s.chunks = ([], s.chunks)) :
    runChunks s cs =
      ⟨(parseStream (s.chunks ++ cs.flatten)).2,
        finExp (parseStream (s.chunks ++ cs.flatten)).2,
        s.frames ++ (parseStream (s.chunks ++ cs.flatten)).1⟩ := by
  induction cs generalizing s with
  | nil =>
    obtain ⟨ch, ex, fr⟩ := s
    simp only [runChunks, List.foldl_nil, List.flatten_nil, List.append_nil] at *
    rw [h2]
    simp [h1]
  | cons c cs ih =>
    have happ := FPState.append_eq s c h1
    have hinv1 : (s.append c).expectedSize = finExp (s.append c).chunks := by
      rw [happ]
    have hinv2 : parseStream (s.append c).chunks = ([], (s.append c).chunks) := by
      rw [happ]
      exact parseStream_stop _ (parseStream_snd_stopped _)
    have hstep : runChunks s (c :: cs) = runChunks (s.append c) cs := by
      simp [runChunks]
    rw [hstep, ih (s.append c) hinv1 hinv2, happ]
    have hps := parseStream_append (s.chunks ++ c) cs.flatten
    simp only [List.flatten_cons, ← List.append_assoc]
    rw [hps]
    simp [List.append_assoc]

theorem parseStream_createFrame (t : Nat) (d rest : List Nat) (hd : d.length < 2 ^ 32) :
    parseStream (createFrame t d ++ rest) =
      (⟨t % 256, d⟩ :: (parseStream rest).1, (parseStream rest).2) := by
  have hbuf : createFrame t d ++ rest = be32 d.length ++ ([t % 256] ++ (d ++ rest)) := by
    simp [createFrame, List.append_assoc]
  have hrd : rd32 (createFrame t d ++ rest) = d.length := by
    rw [hbuf]
    exact rd32_be32 d.length _ hd
  have hlen : (createFrame t d ++ rest).length = d.length + 5 + rest.length := by
    simp [createFrame, be32]
    omega
  have h5 : 5 ≤ (createFrame t d ++ rest).length := by omega
  have he : rd32 (createFrame t d ++ rest) + 5 ≤ (createFrame t d ++ rest).length := by
    rw [hrd]; omega
  rw [parseStream_cons _ h5 he, hrd]
  have hget : (createFrame t d ++ rest).getD 4 0 = t % 256 := by
    simp [createFrame, be32, List.getD_cons_succ, List.getD_cons_zero]
  have hdrop5 : (createFrame t d ++ rest).drop 5 = d ++ rest := by
    simp [createFrame, be32]
  have hdata : ((createFrame t d ++ rest).drop 5).take d.length = d := by
    rw [hdrop5]
    exact List.take_left d rest
  have htail : (createFrame t d ++ rest).drop (d.length + 5) = rest := by
    have hfront : (createFrame t d).length = d.length + 5 := by
      simp [createFrame, be32]
    calc (createFrame t d ++ rest).drop (d.length + 5)
        = (createFrame t d ++ rest).drop (createFrame t d).length := by rw [hfront]
      _ = rest := List.drop_left _ _
  rw [hget, hdata, htail]

theorem parseStream_encodeList (fs : List Frame)
    (h : ∀ f ∈ fs, f.data.length < 2 ^ 32) :
    parseStream ((fs.map fun f => createFrame f.type f.data).flatten) =
      (fs.map fun f => ⟨f.type % 256, f.data⟩, []) := by
  induction fs with
  | nil => rfl
  | cons f fs ih =>
    simp only [List.map_cons, List.flatten_cons]
    rw [parseStream_createFrame f.type f.data _ (h f (by simp))]
    rw [ih (fun g hg => h g (by simp [hg]))]

/-- C6: for every sequence of frames built with createFrame from a valid
type tag in [1, 255] and a payload within the 32-bit size bound, and for
every partition of the concatenated encoded bytes into chunks, appending
the chunks to a FrameParser in order yields exactly the original
(type, data) pairs in receipt order, with nothing left buffered: encoding
then decoding is the identity, independent of how the stream is chunked. -/
theorem frame_roundtrip_any_chunking (fs : List Frame) (cs : List (List Nat))
    (hty : ∀ f ∈ fs, 1 ≤ f.type ∧ f.type ≤ 255)
    (hlen : ∀ f ∈ fs, f.data.length < 2 ^ 32)
    (hcs : cs.flatten = (fs.map fun f => createFrame f.type f.data).flatten) :
    (runChunks FPState.init cs).frames = fs ∧ (runChunks FPState.init cs).chunks = [] := by
  have hmap : (fs.map fun f => (⟨f.type % 256, f.data⟩ : Frame)) = fs := by
    have hid : ∀ f ∈ fs, (⟨f.type % 256, f.data⟩ : Frame) = f := by
      intro f hf
      have h2 := (hty f hf).2
      have hmod : f.type % 256 = f.type := Nat.mod_eq_of_lt (by omega)
      rw [hmod]
    calc fs.map (fun f => (⟨f.type % 256, f.data⟩ : Frame))
        = fs.map id := List.map_congr_left hid
      _ = fs := List.map_id fs
  have hrun := runChunks_eq FPState.init cs rfl rfl
  rw [hrun]
  simp only [FPState.init, List.nil_append]
  rw [hcs, parseStream_encodeList fs hlen, hmap]
  exact ⟨rfl, rfl⟩

/-- C6 witness: a concrete two-frame stream cut into chunks that split both
headers and payloads is reassembled into exactly the original frames. -/
theorem frame_roundtrip_any_chunking_witness :
    (∀ f ∈ ([⟨2, [104, 105]⟩, ⟨14, []⟩] : List Frame), 1 ≤ f.type ∧ f.type ≤ 255) ∧
    (∀ f ∈ ([⟨2, [104, 105]⟩, ⟨14, []⟩] : List Frame), f.data.length < 2 ^ 32) ∧
    ([[0, 0, 0], [2, 2, 104], [105, 0, 0, 0, 0], [14]] : List (List Nat)).flatten =
      (([⟨2, [104, 105]⟩, ⟨14, []⟩] : List Frame).map fun f =>
        createFrame f.type f.data).flatten ∧
    (runChunks FPState.init [[0, 0, 0], [2, 2, 104], [105, 0, 0, 0, 0], [14]]).frames =
      [⟨2, [104, 105]⟩, ⟨14, []⟩] ∧
    (runChunks FPState.init [[0, 0, 0], [2, 2, 104], [105, 0, 0, 0, 0], [14]]).chunks = [] :=
  ⟨by decide, by decide, by decide,
    (frame_roundtrip_any_chunking [⟨2, [104, 105]⟩, ⟨14, []⟩]
      [[0, 0, 0], [2, 2, 104], [105, 0, 0, 0, 0], [14]]
      (by decide) (by decide) (by decide)).1,
    (frame_roundtrip_any_chunking [⟨2, [104, 105]⟩, ⟨14, []⟩]
      [[0, 0, 0], [2, 2, 104], [105, 0, 0, 0, 0], [14]]
      (by decide) (by decide) (by decide)).2⟩

/-- C4 counterexample: the source FrameParser.append never rejects a
declared payload length (the model has no error outcome because the code
has none).  A frame declaring a 16 MiB + 1 payload is buffered and parsed
as a normal frame, contradicting the claim that lengths above the bound
are treated as a fatal protocol error. -/
theorem oversize_payload_parsed_normally :
    (FPState.init.append (createFrame 14 (List.replicate (16 * 2 ^ 20 + 1) 0))).frames =
      [⟨14, List.replicate (16 * 2 ^ 20 + 1) 0⟩] := by
  have key : ∀ n : Nat, n < 2 ^ 32 →
      (FPState.init.append (createFrame 14 (List.replicate n 0))).frames =
        [⟨14, List.replicate n 0⟩] := by
    intro n hn
    rw [FPState.append_eq FPState.init _ rfl]
    simp only [FPState.init, List.nil_append]
    rw [show createFrame 14 (List.replicate n 0) =
        createFrame 14 (List.replicate n 0) ++ [] from (List.append_nil _).symm]
    rw [parseStream_createFrame 14 (List.replicate n 0) []
      (by rw [List.length_replicate]; exact hn)]
    rfl
  exact key (16 * 2 ^ 20 + 1) (by norm_num)

/-- C4 (amended): the frame codec enforces no maximum payload length below
the representational limit of the 4-byte header: every declared length
that fits in 32 bits — lengths above 16 MiB included — is buffered and
parsed as a normal frame once its bytes arrive. -/
theorem no_payload_bound_below_u32 (t : Nat) (d : List Nat)
    (h1 : 1 ≤ t) (h2 : t ≤ 255) (h3 : d.length < 2 ^ 32) :
    (FPState.init.append (createFrame t d)).frames = [⟨t, d⟩] ∧
    (FPState.init.append (createFrame t d)).chunks = [] := by
  rw [FPState.append_eq FPState.init _ rfl]
  simp only [FPState.init, List.nil_append]
  rw [show createFrame t d = createFrame t d ++ [] from (List.append_nil _).symm]
  rw [parseStream_createFrame t d [] h3]
  simp [Nat.mod_eq_of_lt (show t < 256 by omega)]
  exact ⟨rfl, rfl⟩

/-- C4 witness: a concrete small frame is accepted through the same path. -/
theorem no_payload_bound_below_u32_witness :
    1 ≤ 14 ∧ 14 ≤ 255 ∧ ([1, 2, 3] : List Nat).length < 2 ^ 32 ∧
    (FPState.init.append (createFrame 14 [1, 2, 3])).frames = [⟨14, [1, 2, 3]⟩] :=
  ⟨by decide, by decide, by decide,
    (no_payload_bound_below_u32 14 [1, 2, 3] (by decide) (by decide) (by decide)).1⟩

/-! ## Frame type tags (the static getters of src/lib/frame-parser.js) -/

def REUSE : Nat := 1
def CONNECT : Nat := 2
def CHALLENGE : Nat := 3
def CHALLENGE_RESPONSE : Nat := 4
def CONNECTED : Nat := 5
def UNCONNECTED : Nat := 6
def DISCONNECTED : Nat := 7
def SIMPLE_COMMAND : Nat := 8
def PTY_COMMAND : Nat := 9
def RESULT : Nat := 10
def STDIN : Nat := 11
def STDOUT : Nat := 12
def STDERR : Nat := 13
def EXCEPTION : Nat := 14
def SHARE : Nat := 15
def SHARED : Nat := 16
def RESIZE : Nat := 17

/-! ## Daemon-side client handler (src/daemon/handler.js)

The per-client state machine driven by decoded inbound frames.  A frame is
abstracted to its type tag together with the outcome of the decoder that
would run on its payload (`decodeOk`) and, for STDIN, whether the payload
is empty (`stdinEmpty`); the handler never inspects anything else before
choosing a transition. -/

inductive HState
  | initial
  | connecting
  | ready
  | executing
  | errored
deriving DecidableEq, Repr

/-- An inbound frame as seen by the handler switch. -/
structure InFrame where
  type : Nat
  decodeOk : Bool
  stdinEmpty : Bool
deriving DecidableEq, Repr

/-- Observable actions the handler takes while processing one frame. -/
inductive HEffect
  | sendException
  | poolReuse
  | poolConnect
  | sshChallengeResponse
  | sshExec (pty : Bool)
  | sshWriteStdin
  | sshEndStdin
  | sshRelinquish
  | sendShared (shareKey : String)
deriving DecidableEq, Repr

/-- The `exception(reason)` helper: a no-op when already Errored, otherwise
it sends an EXCEPTION frame and enters Errored. -/
def hexception (s : HState) : HState × List HEffect :=
  if s = .errored then (s, []) else (.errored, [.sendException])

/-- One iteration of the frame switch in the socket data listener of
src/daemon/handler.js.  `freshKey` is the hex rendering of the
`randomBytes(16)` drawn in the SHARE case.  Note the switch has no RESIZE
case and no default case, so every tag other than the seven handled ones
falls through with no action. -/
def handlerStep (s : HState) (f : InFrame) (freshKey : String) : HState × List HEffect :=
  if f.type = REUSE then
    if s = .initial then
      if f.decodeOk then (.connecting, [.poolReuse]) else hexception s
    else hexception s
  else if f.type = CONNECT then
    if s = .initial then
      if f.decodeOk then (.connecting, [.poolConnect]) else hexception s
    else hexception s
  else if f.type = CHALLENGE_RESPONSE then
    if s = .connecting then
      if f.decodeOk then (s, [.sshChallengeResponse]) else hexception s
    else if s ≠ .initial ∧ s ≠ .ready then hexception s
    else (s, [])
  else if f.type = SIMPLE_COMMAND ∨ f.type = PTY_COMMAND then
    if s = .ready then
      if f.decodeOk then (.executing, [.sshExec (f.type = PTY_COMMAND)])
      else hexception s
    else hexception s
  else if f.type = STDIN then
    if s = .executing then
      if f.stdinEmpty then (s, [.sshEndStdin]) else (s, [.sshWriteStdin])
    else (s, [])
  else if f.type = SHARE then
    if s = .ready then (.initial, [.sshRelinquish, .sendShared freshKey])
    else hexception s
  else (s, [])

/-! ## Pool relinquish (src/daemon/pool.js)

The session handle returned by `pool.connect`.  Only the state that
`relinquish` reads and writes is modelled: the `reusable` flag and the
lazily assigned `shareKey`. -/

structure Session where
  reusable : Bool
  shareKey : Option String
deriving DecidableEq, Repr

/-- The cache key a relinquished session is stored under, relative to the
session's own cache key: the plain key or the share-key-extended key. -/
inductive PoolKey
  | plain
  | extended (shareKey : String)
deriving DecidableEq, Repr

/-- What became of a relinquished session. -/
inductive RelinquishResult
  | closed
  | cached (key : PoolKey) (ttlMs : Nat) (returned : Option String)
deriving DecidableEq, Repr

/-- The argument the caller passes for `reuse`: a JavaScript boolean, or
the string constant SHARE that selects the share branch. -/
inductive RelinquishArg
  | jsBool (b : Bool)
  | shareMode
deriving DecidableEq, Repr

def SHARED_CONNECTIONS_TTL : Nat := 1000 * 5
def CACHED_CONNECTIONS_TTL : Nat := 1000 * 60 * 60 * 12

/-- Session.relinquish of src/daemon/pool.js.  `freshKey` is the hex
rendering of the `randomBytes(16)` drawn inside the share branch when the
session has no share key yet.  The function declares a single parameter,
so any extra argument a caller passes is ignored. -/
def Session.relinquish (s : Session) (arg : RelinquishArg) (freshKey : String) :
    Session × RelinquishResult :=
  match arg with
  | .jsBool b =>
    if !b || !s.reusable then (s, .closed)
    else (s, .cached .plain CACHED_CONNECTIONS_TTL none)
  | .shareMode =>
    let sk := s.shareKey.getD freshKey
    ({ s with shareKey := some sk },
      .cached (.extended sk) SHARED_CONNECTIONS_TTL (some sk))

/-- C1 is contradicted by the source as assembled: the SHARE case of
src/daemon/handler.js draws a fresh `randomBytes(16)` hex token on every
SHARE frame, sends that token to the client, and calls
`ssh.relinquish(true, shareKey)` — but `relinquish` in src/daemon/pool.js
declares a single parameter and only enters its share branch for the
argument SHARE, so the token is ignored, the session is cached under the
plain key with the 12-hour TTL, and its `shareKey` field is never set.
Two shares of one session with daemon random tokens aa and bb therefore
return the distinct keys aa and bb, while the pool's own (unreached)
share branch would have returned aa both times, as the claim and the
SHARE documentation in src/lib/frame-parser.js describe. -/
theorem share_key_fresh_on_every_share :
    handlerStep .ready ⟨SHARE, true, false⟩ "aa" =
      (.initial, [.sshRelinquish, .sendShared "aa"]) ∧
    handlerStep .ready ⟨SHARE, true, false⟩ "bb" =
      (.initial, [.sshRelinquish, .sendShared "bb"]) ∧
    ("aa" : String) ≠ "bb" ∧
    Session.relinquish ⟨true, none⟩ (.jsBool true) "aa" =
      (⟨true, none⟩, .cached .plain CACHED_CONNECTIONS_TTL none) ∧
    Session.relinquish ⟨true, none⟩ (.jsBool true) "bb" =
      (⟨true, none⟩, .cached .plain CACHED_CONNECTIONS_TTL none) ∧
    (Session.relinquish (Session.relinquish ⟨true, none⟩ .shareMode "aa").1
        .shareMode "bb").2 =
      .cached (.extended "aa") SHARED_CONNECTIONS_TTL (some "aa") :=
  ⟨rfl, rfl, by decide, rfl, rfl, rfl⟩

/-- The per-state table of legal inbound frame types exactly as the claim
states it (the table of spec section 4.5). -/
def claimLegal : HState → Nat → Bool
  | .initial, t => t == REUSE || t == CONNECT || t == RESIZE
  | .connecting, t => t == CHALLENGE_RESPONSE || t == RESIZE
  | .ready, t =>
    t == SIMPLE_COMMAND || t == PTY_COMMAND || t == SHARE || t == RESIZE ||
      t == CHALLENGE_RESPONSE
  | .executing, t => t == STDIN || t == RESIZE
  | .errored, _ => false

/-- C3 counterexample: two frames that are illegal per the claim's table
and not covered by its carve-outs are silently ignored rather than
faulting.  CHALLENGE_RESPONSE in Initial falls into the
`state !== INITIAL && state !== READY` guard and does nothing, and a
caller-bound tag such as CONNECTED hits no case of the switch (which has
no default arm), so neither sends an EXCEPTION nor enters Errored. -/
theorem illegal_frames_silently_ignored :
    handlerStep .initial ⟨CHALLENGE_RESPONSE, true, false⟩ "" = (.initial, []) ∧
    handlerStep .ready ⟨CONNECTED, true, false⟩ "" = (.ready, []) ∧
    claimLegal .initial CHALLENGE_RESPONSE = false ∧
    claimLegal .ready CONNECTED = false := by
  refine ⟨by decide, by decide, by decide, by decide⟩

/-- C3 (amended): restricted to the frame types the handler switch
dispatches (REUSE, CONNECT, CHALLENGE_RESPONSE, SIMPLE_COMMAND,
PTY_COMMAND, SHARE), a type that is illegal for the current state makes
the handler send an EXCEPTION frame and enter the terminal Errored state,
with the carve-outs that CHALLENGE_RESPONSE is silently ignored in Ready
and also in Initial; STDIN outside Executing, RESIZE, and every
undispatched tag are silently ignored in every state. -/
theorem illegal_dispatched_frame_faults (s : HState) (t : Nat) (ok se : Bool) (k : String)
    (hs : s ≠ .errored)
    (ht : t = REUSE ∨ t = CONNECT ∨ t = CHALLENGE_RESPONSE ∨ t = SIMPLE_COMMAND ∨
      t = PTY_COMMAND ∨ t = SHARE)
    (hleg : claimLegal s t = false)
    (hcr : ¬(t = CHALLENGE_RESPONSE ∧ (s = .initial ∨ s = .ready))) :
    handlerStep s ⟨t, ok, se⟩ k = (.errored, [.sendException]) := by
  rcases ht with rfl | rfl | rfl | rfl | rfl | rfl <;>
    cases s <;>
      simp_all [handlerStep, hexception, claimLegal, REUSE, CONNECT, CHALLENGE_RESPONSE,
        SIMPLE_COMMAND, PTY_COMMAND, STDIN, SHARE, RESIZE]

/-- C3 witness: a CONNECT frame arriving in Executing faults the handler. -/
theorem illegal_dispatched_frame_faults_witness :
    (HState.executing ≠ HState.errored) ∧
    (CONNECT = REUSE ∨ CONNECT = CONNECT ∨ CONNECT = CHALLENGE_RESPONSE ∨
      CONNECT = SIMPLE_COMMAND ∨ CONNECT = PTY_COMMAND ∨ CONNECT = SHARE) ∧
    claimLegal .executing CONNECT = false ∧
    ¬(CONNECT = CHALLENGE_RESPONSE ∧
      (HState.executing = .initial ∨ HState.executing = .ready)) ∧
    handlerStep .executing ⟨CONNECT, true, false⟩ "" = (.errored, [.sendException]) :=
  ⟨by decide, by decide, by decide, by decide,
    illegal_dispatched_frame_faults .executing CONNECT true false ""
      (by decide) (by decide) (by decide) (by decide)⟩

/-! ## Per-client window size -/

/-- PTY window dimensions of a client, in character cells. -/
structure Window where
  rows : Int
  cols : Int
deriving DecidableEq, Repr

/-- The default window size (24, 80). -/
def defaultWindow : Window := ⟨24, 80⟩

/-- Modelled from the spec: the daemon-side handling of a RESIZE frame is
missing from src/ — the frame switch of src/daemon/handler.js has no
RESIZE case and src/daemon/decode.js has no resize decoder; only the
RESIZE tag declaration in src/lib/frame-parser.js and the pass-through
`resize(rows, cols)` callee in src/daemon/pool.js are present.  Spec
section 4.3: dimensions are clamped to [1, 512]; a received dimension ≤ 0
leaves that axis unchanged; the upper bound is applied after. -/
def clampAxis (cur req : Int) : Int :=
  if req ≤ 0 then cur else min req 512

/-- Modelled from the spec: apply a received RESIZE request to the stored
window, axis by axis. -/
def applyResize (w : Window) (reqRows reqCols : Int) : Window :=
  ⟨clampAxis w.rows reqRows, clampAxis w.cols reqCols⟩

/-- C2: the dimensions applied by a resize request are clamped to
[1, 512] whenever the current window is in range (as the default (24, 80)
is); a requested dimension of 0 or a negative value leaves that axis
unchanged; a value above 512 is applied as 512; in particular (1000,
2000) is applied as (512, 512) and (0, 0) leaves the window unchanged. -/
theorem resize_clamped (w : Window) (r c : Int)
    (hr : 1 ≤ w.rows ∧ w.rows ≤ 512) (hc : 1 ≤ w.cols ∧ w.cols ≤ 512) :
    (1 ≤ (applyResize w r c).rows ∧ (applyResize w r c).rows ≤ 512) ∧
    (1 ≤ (applyResize w r c).cols ∧ (applyResize w r c).cols ≤ 512) ∧
    (r ≤ 0 → (applyResize w r c).rows = w.rows) ∧
    (c ≤ 0 → (applyResize w r c).cols = w.cols) ∧
    (512 < r → (applyResize w r c).rows = 512) ∧
    (512 < c → (applyResize w r c).cols = 512) ∧
    applyResize w 1000 2000 = ⟨512, 512⟩ ∧
    applyResize w 0 0 = w := by
  refine ⟨?_, ?_, ?_, ?_, ?_, ?_, ?_, ?_⟩
  · simp only [applyResize, clampAxis, min_def]
    split <;> [omega; (split <;> omega)]
  · simp only [applyResize, clampAxis, min_def]
    split <;> [omega; (split <;> omega)]
  · intro h
    simp only [applyResize, clampAxis, if_pos h]
  · intro h
    simp only [applyResize, clampAxis, if_pos h]
  · intro h
    simp only [applyResize, clampAxis, min_def]
    split <;> [omega; (split <;> omega)]
  · intro h
    simp only [applyResize, clampAxis, min_def]
    split <;> [omega; (split <;> omega)]
  · simp [applyResize, clampAxis]
  · simp only [applyResize, clampAxis]
    norm_num

/-- C2 witness: at the default window, (1000, 2000) is applied as
(512, 512). -/
theorem resize_clamped_witness :
    (1 ≤ defaultWindow.rows ∧ defaultWindow.rows ≤ 512) ∧
    (1 ≤ defaultWindow.cols ∧ defaultWindow.cols ≤ 512) ∧
    applyResize defaultWindow 1000 2000 = ⟨512, 512⟩ ∧
    applyResize defaultWindow 0 0 = defaultWindow :=
  ⟨by decide, by decide,
    (resize_clamped defaultWindow 1000 2000 (by decide) (by decide)).2.2.2.2.2.2.1,
    (resize_clamped defaultWindow 1000 2000 (by decide) (by decide)).2.2.2.2.2.2.2⟩

/-! ## Credential cache (src/daemon/pool.js)

The `cachedCredentials` map.  `getCacheKey` renders (username, hostname,
port) injectively as a newline-joined string of base64 fields; since the
maps only compare keys for equality, the triple itself serves as the key
here.  JavaScript object identity of credential records — the `===`
comparison in the error listener — is made explicit with a `rid` field. -/

structure CacheKey where
  username : String
  hostname : String
  port : Nat
deriving DecidableEq, Repr

/-- A credential record: the auth inputs plus the record identity. -/
structure Cred where
  rid : Nat
  privateKey : Option String
  passphrase : Option String
  password : Option String
  tryKeyboard : Bool
deriving DecidableEq, Repr

/-- The sanitized copy stored by the ready listener,
`spread auth with tryKeyboard: false`: a fresh object (fresh identity)
with the same auth fields and `tryKeyboard` forced off. -/
def sanitize (auth : Cred) (freshRid : Nat) : Cred :=
  { auth with tryKeyboard := false, rid := freshRid }

/-- The credentials map.  A JavaScript Map has unique keys and is only
read pointwise by the pool, so it is modelled as a function. -/
def CredMap : Type := CacheKey → Option Cred

def credEmpty : CredMap := fun _ => none

def credSet (m : CredMap) (k : CacheKey) (c : Cred) : CredMap :=
  fun k0 => if k0 = k then some c else m k0

def credDelete (m : CredMap) (k : CacheKey) : CredMap :=
  fun k0 => if k0 = k then none else m k0

/-- The two listeners of src/daemon/pool.js that mutate
`cachedCredentials`, as events: the `ready` listener (with the
`reusingCredentials` and `hadChallenges` flags captured by the closure
and the fresh identity of the copied record), and the `error` listener
(with the `connectInfo` presence as `connected` and the error level). -/
inductive CredEvent
  | ready (k : CacheKey) (auth : Cred) (reusing hadChallenges : Bool) (freshRid : Nat)
  | error (k : CacheKey) (auth : Cred) (reusing connected : Bool) (level : String)
deriving DecidableEq, Repr

/-- One listener invocation: on ready, store the sanitized copy only when
credentials were not reused and no challenge was seen; on error, delete
the entry only when a reused-credential attempt failed with level
client-authentication before ready and the map still holds the very
record that was reused. -/
def credStep (m : CredMap) : CredEvent → CredMap
  | .ready k auth reusing hadChallenges freshRid =>
    if !reusing && !hadChallenges then credSet m k (sanitize auth freshRid) else m
  | .error k auth reusing connected level =>
    if reusing && !connected && (level == "client-authentication") then
      if m k = some auth then credDelete m k else m
    else m

/-- The map reached from daemon start (an empty Map) by a listener trace. -/
def credRun (es : List CredEvent) : CredMap :=
  es.foldl credStep credEmpty

theorem credStep_tryKeyboard (m : CredMap) (e : CredEvent)
    (h : ∀ k c, m k = some c → c.tryKeyboard = false) :
    ∀ k c, credStep m e k = some c → c.tryKeyboard = false := by
  intro k c hc
  cases e with
  | ready k0 auth reusing hadChallenges rid =>
    simp only [credStep] at hc
    split at hc
    · simp only [credSet] at hc
      split at hc
      · cases hc
        rfl
      · exact h k c hc
    · exact h k c hc
  | error k0 auth reusing connected level =>
    simp only [credStep] at hc
    split at hc
    · split at hc
      · simp only [credDelete] at hc
        split at hc
        · cases hc
        · exact h k c hc
      · exact h k c hc
    · exact h k c hc

theorem credFold_tryKeyboard (es : List CredEvent) (m : CredMap)
    (h : ∀ k c, m k = some c → c.tryKeyboard = false) :
    ∀ k c, (es.foldl credStep m) k = some c → c.tryKeyboard = false := by
  induction es generalizing m with
  | nil => exact h
  | cons e es ih => exact ih (credStep m e) (credStep_tryKeyboard m e h)

/-- C5: at every reachable state of the credential cache, every entry has
tryKeyboard = false; an entry changes at a key only through a ready event
with no credential reuse and no challenge, which stores a sanitized copy;
and after an error event for a reused credential with level
client-authentication before ready, the map no longer maps the key to
the reused record (it is deleted when still present under the same
identity, and a replacement by a different record is left alone). -/
theorem cached_credentials_invariant :
    (∀ (es : List CredEvent) (k : CacheKey) (c : Cred),
      credRun es k = some c → c.tryKeyboard = false) ∧
    (∀ (m : CredMap) (e : CredEvent) (k : CacheKey) (c : Cred),
      credStep m e k = some c →
        m k = some c ∨
          ∃ auth rid, e = .ready k auth false false rid ∧ c = sanitize auth rid) ∧
    (∀ (m : CredMap) (k : CacheKey) (auth : Cred),
      credStep m (.error k auth true false "client-authentication") k ≠ some auth) := by
  refine ⟨?_, ?_, ?_⟩
  · intro es k c h
    exact credFold_tryKeyboard es credEmpty (fun _ _ h0 => by cases h0) k c h
  · intro m e k c hc
    cases e with
    | ready k0 auth reusing hadChallenges rid =>
      simp only [credStep] at hc
      split at hc
      · next hcond =>
        simp only [credSet] at hc
        split at hc
        · next hk =>
          subst hk
          cases hc
          simp only [Bool.and_eq_true, Bool.not_eq_true'] at hcond
          exact Or.inr ⟨auth, rid, by rw [hcond.1, hcond.2], rfl⟩
        · exact Or.inl hc
      · exact Or.inl hc
    | error k0 auth reusing connected level =>
      simp only [credStep] at hc
      split at hc
      · split at hc
        · simp only [credDelete] at hc
          split at hc
          · cases hc
          · exact Or.inl hc
        · exact Or.inl hc
      · exact Or.inl hc
  · intro m k auth
    simp only [credStep]
    rw [if_pos (by rfl)]
    by_cases hm : m k = some auth
    · rw [if_pos hm]
      simp [credDelete]
    · rw [if_neg hm]
      exact hm

/-- C5 witness: a ready event with fresh credentials stores a sanitized
entry whose tryKeyboard is false, and after a reused-credential
authentication failure the entry is gone. -/
theorem cached_credentials_invariant_witness :
    credRun [.ready ⟨"u", "h", 22⟩ ⟨0, some "pk", none, some "pw", true⟩ false false 7]
        ⟨"u", "h", 22⟩ = some (sanitize ⟨0, some "pk", none, some "pw", true⟩ 7) ∧
    (sanitize ⟨0, some "pk", none, some "pw", true⟩ 7).tryKeyboard = false ∧
    credStep (credRun [.ready ⟨"u", "h", 22⟩ ⟨0, some "pk", none, some "pw", true⟩ false false 7])
        (.error ⟨"u", "h", 22⟩ (sanitize ⟨0, some "pk", none, some "pw", true⟩ 7) true false
          "client-authentication") ⟨"u", "h", 22⟩ ≠
      some (sanitize ⟨0, some "pk", none, some "pw", true⟩ 7) :=
  ⟨by decide,
    cached_credentials_invariant.1
      [.ready ⟨"u", "h", 22⟩ ⟨0, some "pk", none, some "pw", true⟩ false false 7]
      ⟨"u", "h", 22⟩ (sanitize ⟨0, some "pk", none, some "pw", true⟩ 7) (by decide),
    cached_credentials_invariant.2.2
      (credRun [.ready ⟨"u", "h", 22⟩ ⟨0, some "pk", none, some "pw", true⟩ false false 7])
      ⟨"u", "h", 22⟩ (sanitize ⟨0, some "pk", none, some "pw", true⟩ 7)⟩

/-! ## SSH error classification (toErrorMessage in src/daemon/pool.js) -/

/-- The data of an underlying SSH error that `toErrorMessage` and
`getErrorMessage` read: the classification level (absent on generic
errors, which hit the default arm), the message, and — for an
AggregateError — the messages of the constituent errors. -/
structure SshError where
  level : Option String
  message : String
  isAggregate : Bool
  aggregateMessages : List String
deriving DecidableEq, Repr

/-- getErrorMessage of src/daemon/pool.js: the message, or for an
AggregateError with an empty message the message of the last constituent
that has one, rendered as a parenthesized detail suffix; empty when no
message is available at all. -/
def getErrorMessage (e : SshError) : String :=
  let message :=
    if e.message ≠ "" then e.message
    else if e.isAggregate then
      ((e.aggregateMessages.filter fun s => s ≠ "").getLast?).getD ""
    else ""
  if message ≠ "" then " (" ++ message ++ ")" else ""

/-- The expected and received values recorded by `checkFingerprint` when
the supplied fingerprint does not match the observed one. -/
structure FingerprintMismatch where
  expected : String
  received : String
deriving DecidableEq, Repr

/-- The reason string built for a fingerprint mismatch. -/
def fingerprintChangedMessage (m : FingerprintMismatch) : String :=
  "host fingerprint has changed\nWARNING: You could be getting hacked! Contact an administrator immediately!\n    expected fingerprint: "
    ++ m.expected ++ "\n    received fingerprint: " ++ m.received

/-- toErrorMessage of src/daemon/pool.js: the switch on `err.level`. -/
def toErrorMessage (e : SshError) (fpm : Option FingerprintMismatch) : String :=
  if e.level = some "handshake" then
    match fpm with
    | some m => fingerprintChangedMessage m
    | none => "SSH handshake failed" ++ getErrorMessage e
  else if e.level = some "client-socket" then "connection error" ++ getErrorMessage e
  else if e.level = some "client-timeout" then "connection timed out"
  else if e.level = some "client-authentication" then "authentication denied"
  else if e.level = some "client-dns" then "DNS lookup failed" ++ getErrorMessage e
  else "unexpected error" ++ getErrorMessage e

theorem fingerprintChangedMessage_split (x y : String) :
    fingerprintChangedMessage ⟨x, y⟩ =
      "host fingerprint has changed" ++
        ("\nWARNING: You could be getting hacked! Contact an administrator immediately!\n    expected fingerprint: "
          ++ x ++ "\n    received fingerprint: " ++ y) := by
  unfold fingerprintChangedMessage
  simp only [String.append_assoc]
  rw [← String.append_assoc
    "host fingerprint has changed"
    "\nWARNING: You could be getting hacked! Contact an administrator immediately!\n    expected fingerprint: "]
  rfl

/-- C9: the reason string is determined by the error's classification
level: client-timeout, client-authentication, client-socket, client-dns,
handshake without a mismatch, and every other level map to the six fixed
messages (with the detail suffix computed by getErrorMessage), and a
handshake failure with a fingerprint mismatch yields a reason that starts
with the words host fingerprint has changed and contains both the
expected and the received fingerprint values. -/
theorem ssh_error_reason_classification (e : SshError)
    (fpm : Option FingerprintMismatch) (m : FingerprintMismatch) :
    (e.level = some "client-timeout" → toErrorMessage e fpm = "connection timed out") ∧
    (e.level = some "client-authentication" →
      toErrorMessage e fpm = "authentication denied") ∧
    (e.level = some "client-socket" →
      toErrorMessage e fpm = "connection error" ++ getErrorMessage e) ∧
    (e.level = some "client-dns" →
      toErrorMessage e fpm = "DNS lookup failed" ++ getErrorMessage e) ∧
    (e.level = some "handshake" → fpm = none →
      toErrorMessage e fpm = "SSH handshake failed" ++ getErrorMessage e) ∧
    (e.level ≠ some "handshake" → e.level ≠ some "client-socket" →
      e.level ≠ some "client-timeout" → e.level ≠ some "client-authentication" →
      e.level ≠ some "client-dns" →
      toErrorMessage e fpm = "unexpected error" ++ getErrorMessage e) ∧
    (e.level = some "handshake" → fpm = some m →
      (∃ rest, toErrorMessage e fpm = "host fingerprint has changed" ++ rest) ∧
      (∃ a b, toErrorMessage e fpm = a ++ m.expected ++ b ++ m.received)) := by
  refine ⟨?_, ?_, ?_, ?_, ?_, ?_, ?_⟩
  · intro h
    simp [toErrorMessage, h]
  · intro h
    simp [toErrorMessage, h]
  · intro h
    simp [toErrorMessage, h]
  · intro h
    simp [toErrorMessage, h]
  · intro h1 h2
    subst h2
    simp [toErrorMessage, h1]
  · intro h1 h2 h3 h4 h5
    simp [toErrorMessage, h1, h2, h3, h4, h5]
  · intro h1 h2
    subst h2
    simp only [toErrorMessage, if_pos h1]
    obtain ⟨me, mr⟩ := m
    exact ⟨⟨_, fingerprintChangedMessage_split me mr⟩, ⟨_, _, rfl⟩⟩

/-- C9 witness: a client-timeout error maps to the fixed reason, and a
handshake error with a mismatch starts with the distinguished words. -/
theorem ssh_error_reason_classification_witness :
    toErrorMessage ⟨some "client-timeout", "boom", false, []⟩ none =
      "connection timed out" ∧
    (∃ rest,
      toErrorMessage ⟨some "handshake", "", false, []⟩ (some ⟨"E1", "R2"⟩) =
        "host fingerprint has changed" ++ rest) :=
  ⟨(ssh_error_reason_classification ⟨some "client-timeout", "boom", false, []⟩ none
      ⟨"E1", "R2"⟩).1 rfl,
    ((ssh_error_reason_classification ⟨some "handshake", "", false, []⟩
      (some ⟨"E1", "R2"⟩) ⟨"E1", "R2"⟩).2.2.2.2.2.2 rfl rfl).1⟩

/-! ## CONNECT payload validation (src/daemon/decode.js)

`connectParams` destructures a parsed JSON object and validates each
field.  JSON values are modelled by their JavaScript runtime type as far
as the validators inspect them; a field is `none` when absent from the
object (JSON cannot encode undefined, so absent is the only way a
destructuring default applies). -/

inductive JVal
  | str (s : String)
  | int (n : Int)
  | nonIntNum
  | bool (b : Bool)
  | null
  | arr
  | obj
deriving DecidableEq, Repr

/-- isNonEmptyString of src/daemon/decode.js, applied to a possibly
undefined value. -/
def isNonEmptyStringJ : Option JVal → Bool
  | some (.str s) => decide (s ≠ "")
  | _ => false

/-- isValidPort of src/daemon/decode.js: Number.isInteger, 0 < port,
port ≤ 65535. -/
def isValidPort : JVal → Bool
  | .int n => decide (0 < n) && decide (n ≤ 65535)
  | _ => false

/-- A `typeof x === 'boolean'` check. -/
def isBoolJ : JVal → Bool
  | .bool _ => true
  | _ => false

/-- JavaScript truthiness of a validated boolean value. -/
def jvalIsTrue : JVal → Bool
  | .bool b => b
  | _ => false

/-- The fields `connectParams` destructures from the parsed object;
unknown extra fields are discarded by the destructuring itself. -/
structure ConnectPayload where
  username : Option JVal
  hostname : Option JVal
  port : Option JVal
  fingerprint : Option JVal
  reusable : Option JVal
  privateKey : Option JVal
  passphrase : Option JVal
  password : Option JVal
  tryKeyboard : Option JVal
  privateKeyEncoded : Option JVal
deriving DecidableEq, Repr

/-- A CONNECT frame payload as seen by expectJSON: bytes that do not
parse as JSON, a JSON document that is not an object (null, array or
primitive), or an object. -/
inductive JsonDoc
  | invalid
  | nonObject
  | object (o : ConnectPayload)
deriving DecidableEq, Repr

/-- The private key in the returned record: the string as supplied, or
raw bytes after base64 decoding. -/
inductive PrivKeyOut
  | str (s : String)
  | bytes (bs : List Nat)
deriving DecidableEq, Repr

/-- The validated record `connectParams` returns. -/
structure ConnectRecord where
  username : String
  hostname : String
  port : Int
  fingerprint : Option String
  reusable : Bool
  privateKey : Option PrivKeyOut
  passphrase : Option String
  password : Option String
  tryKeyboard : Bool
deriving DecidableEq, Repr

/-- The value of a base64 alphabet character; `none` for every other
character, which Buffer.from(s, base64) skips. -/
def base64Val (c : Char) : Option Nat :=
  if 65 ≤ c.toNat ∧ c.toNat ≤ 90 then some (c.toNat - 65)
  else if 97 ≤ c.toNat ∧ c.toNat ≤ 122 then some (c.toNat - 97 + 26)
  else if 48 ≤ c.toNat ∧ c.toNat ≤ 57 then some (c.toNat - 48 + 52)
  else if c = Char.ofNat 43 then some 62
  else if c = Char.ofNat 47 then some 63
  else none

/-- Buffer.from(s, base64): collect 6-bit groups from alphabet
characters, emit every full byte, and drop trailing bits short of a
byte. -/
def base64Decode (s : String) : List Nat :=
  (s.toList.foldl
    (fun acc c =>
      match base64Val c with
      | none => acc
      | some v =>
        let bits := acc.2.1 * 64 + v
        let nbits := acc.2.2 + 6
        if 8 ≤ nbits then
          (acc.1 ++ [bits / 2 ^ (nbits - 8) % 256], bits % 2 ^ (nbits - 8), nbits - 8)
        else (acc.1, bits, nbits))
    ([], 0, 0)).1

/-- String.prototype.toLowerCase as used on hostnames (ASCII range). -/
def jsToLowerCase (s : String) : String := (s.toList.map Char.toLower).asString

/-- The conjunction of the validate calls in `connectParams`.  The source
throws at the first failing validate; as only acceptance is observable,
the checks are conjoined.  The two cross-field truthiness checks run on
values already validated as undefined-or-non-empty-string and boolean,
where truthiness is presence and literal true respectively. -/
def connectAccepts (o : ConnectPayload) : Bool :=
  isNonEmptyStringJ o.hostname &&
  isNonEmptyStringJ o.username &&
  isValidPort (o.port.getD (.int 22)) &&
  (isNonEmptyStringJ o.fingerprint || o.fingerprint.isNone) &&
  (isNonEmptyStringJ o.privateKey || o.privateKey.isNone) &&
  (isNonEmptyStringJ o.passphrase || o.passphrase.isNone) &&
  (isNonEmptyStringJ o.password || o.password.isNone) &&
  isBoolJ (o.privateKeyEncoded.getD (.bool false)) &&
  isBoolJ (o.tryKeyboard.getD (.bool false)) &&
  isBoolJ (o.reusable.getD (.bool false)) &&
  (o.privateKey.isSome || o.passphrase.isNone) &&
  (o.privateKey.isSome || !jvalIsTrue (o.privateKeyEncoded.getD (.bool false)))

/-- Extract a validated optional string field. -/
def asString : Option JVal → Option String
  | some (.str s) => some s
  | _ => none

/-- connectParams of src/daemon/decode.js: null on a parse failure, a
non-object document, or any validation failure; otherwise the typed
record, with the hostname lowercased and the private key base64-decoded
when privateKeyEncoded is set. -/
def connectParams : JsonDoc → Option ConnectRecord
  | .invalid => none
  | .nonObject => none
  | .object o =>
    if connectAccepts o then
      match o.username, o.hostname with
      | some (.str u), some (.str hn) =>
        some
          { username := u
            hostname := jsToLowerCase hn
            port := match o.port.getD (.int 22) with | .int n => n | _ => 0
            fingerprint := asString o.fingerprint
            reusable := jvalIsTrue (o.reusable.getD (.bool false))
            privateKey :=
              if jvalIsTrue (o.privateKeyEncoded.getD (.bool false)) then
                (asString o.privateKey).map fun s => .bytes (base64Decode s)
              else (asString o.privateKey).map .str
            passphrase := asString o.passphrase
            password := asString o.password
            tryKeyboard := jvalIsTrue (o.tryKeyboard.getD (.bool false)) }
      | _, _ => none
    else none

/-- An optional field that is absent or a non-empty string, as the claim
words it. -/
def OptStr (x : Option JVal) : Prop :=
  x = none ∨ ∃ s, x = some (.str s) ∧ s ≠ ""

/-- An optional field that is absent or a boolean, as the claim words
it. -/
def OptBool (x : Option JVal) : Prop :=
  x = none ∨ ∃ b, x = some (.bool b)

/-- The acceptance condition exactly as the claim states it, written from
the claim's words for comparison with the source-derived validator. -/
def claimAccepts (o : ConnectPayload) : Prop :=
  (∃ u, o.username = some (.str u) ∧ u ≠ "") ∧
  (∃ h, o.hostname = some (.str h) ∧ h ≠ "") ∧
  (o.port = none ∨ ∃ n : Int, o.port = some (.int n) ∧ 1 ≤ n ∧ n ≤ 65535) ∧
  OptStr o.fingerprint ∧ OptStr o.privateKey ∧ OptStr o.passphrase ∧ OptStr o.password ∧
  OptBool o.reusable ∧ OptBool o.tryKeyboard ∧ OptBool o.privateKeyEncoded ∧
  (o.passphrase.isSome = true → o.privateKey.isSome = true) ∧
  (o.privateKeyEncoded = some (.bool true) → o.privateKey.isSome = true)

theorem isNonEmptyStringJ_iff (x : Option JVal) :
    isNonEmptyStringJ x = true ↔ ∃ s, x = some (.str s) ∧ s ≠ "" := by
  cases x with
  | none => simp [isNonEmptyStringJ]
  | some v => cases v <;> simp [isNonEmptyStringJ]

theorem optStr_iff (x : Option JVal) :
    (isNonEmptyStringJ x || x.isNone) = true ↔ OptStr x := by
  cases x with
  | none => simp [isNonEmptyStringJ, OptStr]
  | some v => cases v <;> simp [isNonEmptyStringJ, OptStr]

theorem optBool_iff (x : Option JVal) :
    isBoolJ (x.getD (.bool false)) = true ↔ OptBool x := by
  cases x with
  | none => simp [isBoolJ, OptBool]
  | some v => cases v <;> simp [isBoolJ, OptBool]

theorem port_iff (x : Option JVal) :
    isValidPort (x.getD (.int 22)) = true ↔
      (x = none ∨ ∃ n : Int, x = some (.int n) ∧ 1 ≤ n ∧ n ≤ 65535) := by
  cases x with
  | none => simp [isValidPort]
  | some v =>
    cases v <;> simp [isValidPort]
    omega

theorem passphrase_requires_iff (a b : Option JVal) :
    (a.isSome || b.isNone) = true ↔ (b.isSome = true → a.isSome = true) := by
  cases a <;> cases b <;> simp

theorem encoded_requires_iff (a x : Option JVal) :
    (a.isSome || !jvalIsTrue (x.getD (.bool false))) = true ↔
      (x = some (.bool true) → a.isSome = true) := by
  cases a with
  | none =>
    cases x with
    | none => simp [jvalIsTrue]
    | some v =>
      cases v with
      | bool b => cases b <;> simp [jvalIsTrue]
      | _ => simp [jvalIsTrue]
  | some _ => simp

theorem connectAccepts_iff_claim (o : ConnectPayload) :
    connectAccepts o = true ↔ claimAccepts o := by
  unfold connectAccepts claimAccepts
  simp only [Bool.and_eq_true, isNonEmptyStringJ_iff, optStr_iff, optBool_iff, port_iff,
    passphrase_requires_iff, encoded_requires_iff]
  tauto

/-- C7: the CONNECT payload validator accepts a payload iff it is a JSON
object with non-empty string username and hostname, an integer port in
[1, 65535] (default 22), optional non-empty strings
fingerprint/privateKey/passphrase/password, boolean
reusable/tryKeyboard/privateKeyEncoded, passphrase only present with
privateKey, and privateKeyEncoded only true with privateKey; invalid
JSON and non-objects are rejected; and on acceptance the record carries
the lowercased hostname, the default port 22 when absent, and the
base64-decoded private key when privateKeyEncoded is true. -/
theorem connect_validator_correct (o : ConnectPayload) :
    ((connectParams (.object o)).isSome = true ↔ claimAccepts o) ∧
    connectParams .invalid = none ∧
    connectParams .nonObject = none ∧
    (∀ r, connectParams (.object o) = some r →
      (∀ hn, o.hostname = some (.str hn) → r.hostname = jsToLowerCase hn) ∧
      (o.port = none → r.port = 22) ∧
      (∀ n : Int, o.port = some (.int n) → r.port = n) ∧
      (∀ s, o.privateKey = some (.str s) → o.privateKeyEncoded = some (.bool true) →
        r.privateKey = some (.bytes (base64Decode s)))) := by
  have hsome : (connectParams (.object o)).isSome = true ↔ connectAccepts o = true := by
    constructor
    · intro h
      by_cases hacc : connectAccepts o = true
      · exact hacc
      · rw [connectParams, if_neg hacc] at h
        cases h
    · intro hacc
      obtain ⟨⟨u, hu, _⟩, ⟨hn, hh, _⟩, _⟩ := (connectAccepts_iff_claim o).mp hacc
      rw [connectParams, if_pos hacc, hu, hh]
      rfl
  refine ⟨hsome.trans (connectAccepts_iff_claim o), rfl, rfl, ?_⟩
  intro r hr
  have hacc : connectAccepts o = true := by
    by_cases hacc : connectAccepts o = true
    · exact hacc
    · rw [connectParams, if_neg hacc] at hr
      cases hr
  obtain ⟨⟨u, hu, _⟩, ⟨hn0, hh0, _⟩, _⟩ := (connectAccepts_iff_claim o).mp hacc
  rw [connectParams, if_pos hacc, hu, hh0] at hr
  simp only [Option.some.injEq] at hr
  subst hr
  refine ⟨?_, ?_, ?_, ?_⟩
  · intro hn hhn
    rw [hh0] at hhn
    cases hhn
    rfl
  · intro hp
    simp [hp]
  · intro n hp
    simp [hp]
  · intro s hpk henc
    simp [hpk, henc, jvalIsTrue, asString]

/-- C7 witness: a concrete payload with an uppercase hostname and no port
is accepted with the hostname lowercased and port 22; the boundary ports
behave as claimed. -/
theorem connect_validator_correct_witness :
    connectParams (.object ⟨some (.str "u"), some (.str "Example.COM"), none, none, none,
        none, none, none, none, none⟩) =
      some ⟨"u", "example.com", 22, none, false, none, none, none, false⟩ ∧
    (⟨"u", "example.com", 22, none, false, none, none, none, false⟩ :
        ConnectRecord).hostname = jsToLowerCase "Example.COM" ∧
    (⟨"u", "example.com", 22, none, false, none, none, none, false⟩ :
        ConnectRecord).port = 22 ∧
    (connectParams (.object ⟨some (.str "u"), some (.str "h"), some (.int 0), none, none,
        none, none, none, none, none⟩)).isSome = false ∧
    (connectParams (.object ⟨some (.str "u"), some (.str "h"), some (.int 65536), none, none,
        none, none, none, none, none⟩)).isSome = false ∧
    (connectParams (.object ⟨some (.str "u"), some (.str "h"), some (.int 1), none, none,
        none, none, none, none, none⟩)).isSome = true ∧
    (connectParams (.object ⟨some (.str "u"), some (.str "h"), some (.int 65535), none, none,
        none, none, none, none, none⟩)).isSome = true :=
  ⟨by decide,
    ((connect_validator_correct ⟨some (.str "u"), some (.str "Example.COM"), none, none, none,
        none, none, none, none, none⟩).2.2.2
      ⟨"u", "example.com", 22, none, false, none, none, none, false⟩ (by decide)).1
      "Example.COM" rfl,
    ((connect_validator_correct ⟨some (.str "u"), some (.str "Example.COM"), none, none, none,
        none, none, none, none, none⟩).2.2.2
      ⟨"u", "example.com", 22, none, false, none, none, none, false⟩ (by decide)).2.1 rfl,
    by decide, by decide, by decide, by decide⟩

/-! ## Caller-side client state machine (src/lib/create-client.js) -/

inductive CState
  | initial
  | connecting
  | ready
  | executing
  | errored
deriving DecidableEq, Repr

/-- A terminal error as stashed by the client: its message and its type
tag (NO_DAEMON, DAEMON_ERROR, CLOSED, ...). -/
structure ClientError where
  message : String
  typ : String
deriving DecidableEq, Repr

/-- The mutable closure state of createClient that the stashed-error
policy reads: the state symbol, the hasNewException flag, the saved
`error`, and whether a pending operation resolver exists. -/
structure ClientState where
  state : CState
  hasNewException : Bool
  stashed : Option ClientError
  hasResolver : Bool
deriving DecidableEq, Repr

def ClientState.init : ClientState := ⟨.initial, false, none, false⟩

/-- The exception(message, type) function of src/lib/create-client.js: a
no-op once Errored; otherwise enter Errored, save the error, and either
reject the pending resolver or set hasNewException for the next
operation. -/
def exceptionStep (s : ClientState) (message typ : String) : ClientState :=
  if s.state = .errored then s
  else
    { state := .errored
      stashed := some ⟨message, typ⟩
      hasNewException := if s.hasResolver then s.hasNewException else true
      hasResolver := false }

/-- What a client method invocation raises, if anything. -/
inductive Raised
  | ok
  | stashedErr (e : Option ClientError)
  | closedErr (cause : Option ClientError)
  | wrongState
deriving DecidableEq, Repr

/-- The expectState guard that reuse, connect and exec run first: in
Errored it throws the stashed error once (clearing the flag) and a
generic Client-is-closed TypeError carrying the original as cause
afterwards; otherwise it throws on a state mismatch and lets the call
proceed on a match. -/
def expectState (s : ClientState) (expected : CState) : Raised × ClientState :=
  if s.state = .errored then
    if s.hasNewException then
      (.stashedErr s.stashed, { s with hasNewException := false })
    else (.closedErr s.stashed, s)
  else if s.state ≠ expected then (.wrongState, s)
  else (.ok, s)

/-- close() of src/lib/create-client.js: run exception with the CLOSED
error (a no-op when already Errored), then clear hasNewException; close
itself never raises. -/
def closeStep (s : ClientState) : ClientState :=
  { exceptionStep s "Client was closed manually" "CLOSED" with hasNewException := false }

/-- C8 counterexample: enter Errored while idle (no pending operation),
then invoke close() — a client method — as the next invocation.  close()
raises nothing and clears hasNewException, so the stashed terminal error
is never raised by any invocation, contradicting the claim that the next
invocation of any client method raises it exactly once. -/
theorem close_skips_stashed_error :
    (exceptionStep ClientState.init "Fatal error emitted by ssh-bridge daemon"
        "DAEMON_ERROR").hasNewException = true ∧
    (exceptionStep ClientState.init "Fatal error emitted by ssh-bridge daemon"
        "DAEMON_ERROR").hasResolver = false ∧
    (closeStep (exceptionStep ClientState.init "Fatal error emitted by ssh-bridge daemon"
        "DAEMON_ERROR")).hasNewException = false ∧
    (expectState
        (closeStep (exceptionStep ClientState.init "Fatal error emitted by ssh-bridge daemon"
          "DAEMON_ERROR")) .initial).1 =
      .closedErr (some ⟨"Fatal error emitted by ssh-bridge daemon", "DAEMON_ERROR"⟩) := by
  decide

/-- C8 (amended): restricted to the state-guarded client methods (reuse,
connect and exec, which all run expectState first): when the machine
entered Errored while idle, the next such invocation raises the stashed
terminal error exactly once — the flag clears, the stash survives — and
every subsequent such invocation raises the generic Client-is-closed
error carrying the original error as cause, leaving the state unchanged;
close() never raises and consumes the pending stashed error instead. -/
theorem stashed_error_raised_once (s0 s : ClientState) (e : ClientError)
    (m1 m2 : CState) (msg typ : String)
    (hidle : s0.state ≠ .errored ∧ s0.hasResolver = false)
    (hs : s.state = .errored) (hflag : s.hasNewException = true)
    (hst : s.stashed = some e) :
    ((exceptionStep s0 msg typ).hasNewException = true ∧
      (exceptionStep s0 msg typ).stashed = some ⟨msg, typ⟩ ∧
      (exceptionStep s0 msg typ).state = .errored) ∧
    (expectState s m1).1 = .stashedErr (some e) ∧
    ((expectState s m1).2).hasNewException = false ∧
    ((expectState s m1).2).stashed = some e ∧
    ((expectState s m1).2).state = .errored ∧
    (expectState (expectState s m1).2 m2).1 = .closedErr (some e) ∧
    (expectState (expectState s m1).2 m2).2 = (expectState s m1).2 := by
  obtain ⟨h1, h2⟩ := hidle
  refine ⟨⟨?_, ?_, ?_⟩, ?_, ?_, ?_, ?_, ?_, ?_⟩ <;>
    simp [exceptionStep, expectState, h1, h2, hs, hflag, hst]

/-- C8 witness: the amended behavior at a concrete errored-while-idle
client. -/
theorem stashed_error_raised_once_witness :
    ((⟨.initial, false, none, false⟩ : ClientState).state ≠ .errored ∧
      (⟨.initial, false, none, false⟩ : ClientState).hasResolver = false) ∧
    (⟨.errored, true, some ⟨"m", "NO_DAEMON"⟩, false⟩ : ClientState).state = .errored ∧
    (⟨.errored, true, some ⟨"m", "NO_DAEMON"⟩, false⟩ : ClientState).hasNewException = true ∧
    (⟨.errored, true, some ⟨"m", "NO_DAEMON"⟩, false⟩ : ClientState).stashed =
      some ⟨"m", "NO_DAEMON"⟩ ∧
    (expectState ⟨.errored, true, some ⟨"m", "NO_DAEMON"⟩, false⟩ .ready).1 =
      .stashedErr (some ⟨"m", "NO_DAEMON"⟩) ∧
    (expectState (expectState ⟨.errored, true, some ⟨"m", "NO_DAEMON"⟩, false⟩ .ready).2
        .initial).1 = .closedErr (some ⟨"m", "NO_DAEMON"⟩) :=
  ⟨⟨by decide, by decide⟩, by decide, by decide, by decide,
    (stashed_error_raised_once ⟨.initial, false, none, false⟩
      ⟨.errored, true, some ⟨"m", "NO_DAEMON"⟩, false⟩ ⟨"m", "NO_DAEMON"⟩ .ready .initial
      "x" "CLOSED" ⟨by decide, by decide⟩ (by decide) (by decide) (by decide)).2.1,
    (stashed_error_raised_once ⟨.initial, false, none, false⟩
      ⟨.errored, true, some ⟨"m", "NO_DAEMON"⟩, false⟩ ⟨"m", "NO_DAEMON"⟩ .ready .initial
      "x" "CLOSED" ⟨by decide, by decide⟩ (by decide) (by decide) (by decide)).2.2.2.2.2.1⟩

/-! ## connect() and the tryKeyboard override (src/lib/create-client.js) -/

/-- The challengeHandler argument of connect: omitted (defaulted to
null), literally null, a function, or any other value. -/
inductive ChallengeHandlerArg
  | omitted
  | nullArg
  | func
  | other
deriving DecidableEq, Repr

/-- The params object passed to connect, restricted to what the override
touches: the caller-supplied tryKeyboard value (if any) and an opaque
identifier standing for all remaining fields, which the override leaves
alone. -/
structure CallerParams where
  tryKeyboard : Option Bool
  restId : Nat
deriving DecidableEq, Repr

/-- The head of connect() in src/lib/create-client.js: set
params.tryKeyboard to true when challengeHandler is a function, to false
when it is null (also the default when omitted), and throw a TypeError —
sending nothing — for any other value. -/
def connectPreparedParams (p : CallerParams) (h : ChallengeHandlerArg) :
    Option CallerParams :=
  match h with
  | .func => some { p with tryKeyboard := some true }
  | .nullArg => some { p with tryKeyboard := some false }
  | .omitted => some { p with tryKeyboard := some false }
  | .other => none

/-- C10: the CONNECT payload sent carries tryKeyboard = true exactly when
a challengeHandler function is given, and tryKeyboard = false when it is
omitted or null, overriding whatever tryKeyboard value the caller put in
params (the other fields are untouched); a non-function non-null handler
throws before anything is sent. -/
theorem connect_tryKeyboard_override (p : CallerParams) :
    (connectPreparedParams p .func).map (fun q => q.tryKeyboard) = some (some true) ∧
    (connectPreparedParams p .nullArg).map (fun q => q.tryKeyboard) = some (some false) ∧
    (connectPreparedParams p .omitted).map (fun q => q.tryKeyboard) = some (some false) ∧
    connectPreparedParams p .other = none ∧
    (∀ h q, connectPreparedParams p h = some q → q.restId = p.restId) ∧
    (∀ h q, connectPreparedParams p h = some q →
      (q.tryKeyboard = some true ↔ h = .func)) := by
  refine ⟨rfl, rfl, rfl, rfl, ?_, ?_⟩
  · intro h q hq
    cases h <;> simp [connectPreparedParams] at hq <;> simp [← hq]
  · intro h q hq
    cases h <;> simp [connectPreparedParams] at hq <;> simp [← hq]

/-- C10 witness: a caller-supplied tryKeyboard of false is overridden to
true when a challenge handler function is given, and the rest of the
params object is untouched. -/
theorem connect_tryKeyboard_override_witness :
    (connectPreparedParams ⟨some false, 3⟩ .func).map (fun q => q.tryKeyboard) =
      some (some true) ∧
    (⟨some true, 3⟩ : CallerParams).restId = (⟨some false, 3⟩ : CallerParams).restId :=
  ⟨(connect_tryKeyboard_override ⟨some false, 3⟩).1,
    (connect_tryKeyboard_override ⟨some false, 3⟩).2.2.2.2.1 .func ⟨some true, 3⟩
      (by decide)⟩

end SshBridge
